import Mathlib

/-!
Verification of the QR reader single-page application (src/App.tsx).

The application is a single React component.  Its logic splits into

* pure helpers: `validateFile` (MIME/size validation), `isHttpUrl`
  (clickable-link classification of the decoded text);
* an event-driven decode lifecycle: selecting a file (via the file input or
  a clipboard paste) starts an asynchronous decode whose callbacks are
  guarded by a `cancelled` flag, and whose transient object URLs are
  revoked on exit paths.

The component state (`useState` hooks) is embedded as `AppState`; the
effect machinery (`useEffect` over `selectedFile`, the in-flight image
loads and their closures) as `World`, with a step function per DOM event.
External collaborators (the browser URL constructor, the image decoder,
the 2D canvas context, and the jsQR routine) are modelled as inputs of
the resolution events; their relevant contracts (an image load either
errors or yields natural dimensions, `getImageData` with a zero dimension
throws `IndexSizeError`, jsQR returns a decoded string or null) follow
the HTML/WHATWG standards the browser implements.
-/

/-- A selected or pasted image file: declared MIME type, byte length and
filename, as the component reads them off the DOM `File` object. -/
structure File where
  name : String
  type : String
  size : Nat
  deriving DecidableEq, Repr

/-- src/App.tsx line 4: `const MAX_FILE_SIZE_BYTES = 5 * 1024 * 1024`. -/
def MAX_FILE_SIZE_BYTES : Nat := 5 * 1024 * 1024

/-- src/App.tsx line 5: the accepted MIME types
`new Set(['image/png', 'image/jpeg', 'image/webp'])`. -/
def ACCEPTED_MIME_TYPES : List String := ["image/png", "image/jpeg", "image/webp"]

/-- Validation message for an unsupported image format (src/App.tsx line 23). -/
def msgUnsupportedFormat : String := "対応していない画像形式です。PNG / JPEG / WEBP のみ対応しています。"

/-- Validation message for an oversized image (src/App.tsx line 26). -/
def msgFileTooLarge : String := "画像サイズが大きすぎます。最大 5MB まで対応しています。"

/-- Error message when the 2D context cannot be acquired (src/App.tsx line 72). -/
def msgContextUnavailable : String := "画像の解析に必要な描画コンテキストを取得できませんでした。"

/-- Error message when jsQR finds no code (src/App.tsx line 82). -/
def msgCodeNotFound : String := "QRコードが見つかりませんでした。"

/-- Error message when the image fails to load (src/App.tsx line 98). -/
def msgImageLoadFailed : String := "画像の読み込みに失敗しました。"

/-- Paste message when the clipboard has no items or no image item
(src/App.tsx lines 113 and 119). -/
def msgClipboardNoImage : String := "クリップボードに画像が見つかりませんでした。"

/-- Paste message when the image item cannot be materialised into a file
(src/App.tsx line 125). -/
def msgClipboardReadFailed : String := "クリップボードの画像を読み込めませんでした。"

/-- src/App.tsx lines 21–29, `validateFile`: `some message` embeds the
returned error string, `none` embeds the `return null` acceptance. -/
def validateFile (file : File) : Option String :=
  if !(ACCEPTED_MIME_TYPES.contains file.type) then some msgUnsupportedFormat
  else if file.size > MAX_FILE_SIZE_BYTES then some msgFileTooLarge
  else none

/-- A scheme may start with an ASCII letter (WHATWG URL, scheme start state). -/
def isSchemeStartChar (c : Char) : Bool := c.isAlpha

/-- Characters a scheme may continue with (WHATWG URL, scheme state). -/
def isSchemeChar (c : Char) : Bool := c.isAlphanum || c == '+' || c == '-' || c == '.'

/-- The parsed URL record, restricted to the one field the component reads:
`protocol` is the lowercased scheme followed by a colon. -/
structure URLRec where
  protocol : String
  deriving DecidableEq, Repr

/-- Consume scheme characters until the terminating colon; `acc` holds the
already-lowercased scheme characters in reverse.  Returns the scheme and
the remaining characters, or `none` when no colon-terminated scheme exists. -/
def takeScheme (cs : List Char) (acc : List Char) : Option (String × List Char) :=
  match cs with
  | [] => none
  | c :: rest =>
    if c == ':' then some (String.mk acc.reverse, rest)
    else if isSchemeChar c then takeScheme rest (c.toLower :: acc)
    else none

/-- The URL schemes that are special and require an authority with a
nonempty host (WHATWG URL; `file` is omitted as it allows an empty host). -/
def hostRequiringSchemes : List String := ["ftp", "http", "https", "ws", "wss"]

/-- After the colon of a host-requiring scheme the input must continue with
`//` and a nonempty host. -/
def hasNonemptyHost : List Char → Bool
  | '/' :: '/' :: c :: _ => !(c == '/')
  | _ => false

/-- Model of the browser URL constructor used at src/App.tsx line 14
(`new URL(value)`): an external platform API, embedded as the fragment of
the WHATWG URL parser the component relies on.  Parsing succeeds when the
string starts with a well-formed scheme followed by a colon (and, for the
special host-requiring schemes, `//` plus a nonempty host); the result
carries the `protocol` the component compares.  A parse failure embeds the
thrown `TypeError` (the `catch` branch of `isHttpUrl`). -/
def parseURL (s : String) : Option URLRec :=
  match s.data with
  | [] => none
  | c :: rest =>
    if isSchemeStartChar c then
      match takeScheme rest [c.toLower] with
      | none => none
      | some (scheme, remainder) =>
        if hostRequiringSchemes.contains scheme then
          if hasNonemptyHost remainder then some { protocol := scheme ++ ":" } else none
        else some { protocol := scheme ++ ":" }
    else none

/-- src/App.tsx lines 12–19, `isHttpUrl`: parse the value as a URL and
accept exactly the protocols `http:` and `https:`; a parse failure is
caught and classified as not a link. -/
def isHttpUrl (value : String) : Bool :=
  match parseURL value with
  | some parsed => parsed.protocol == "http:" || parsed.protocol == "https:"
  | none => false

/-- The outcome of the image load the decode effect awaits: the `onerror`
callback, or the `onload` callback with the image's natural dimensions. -/
inductive LoadResult where
  | failure
  | success (naturalWidth naturalHeight : Nat)
  deriving DecidableEq, Repr

/-- The environment a decode callback resolves against: how the image load
ended, whether `canvas.getContext` returns a context, and what jsQR returns
on the extracted pixel data (`none` embeds jsQR's `null`). -/
structure ResolveEnv where
  load : LoadResult
  hasContext : Bool
  qr : Option String
  deriving DecidableEq, Repr

/-- The terminal classification of one decode attempt, as the spec's
DecodeOutcome (the Pending case is the `isDecoding` flag of the state). -/
inductive DecodeOutcome where
  | success (text : String)
  | notFound
  | loadError
  | contextError
  deriving DecidableEq, Repr

/-- src/App.tsx lines 63–99, the bodies of `image.onload` / `image.onerror`
after the `cancelled` guard, as a function of the environment: load failure
gives the load-error outcome; a missing 2D context the context outcome;
otherwise `getImageData(0, 0, canvas.width, canvas.height)` runs — per the
HTML standard it throws `IndexSizeError` when either dimension is zero
(there is no guard in the code), embedded as `Except.error`; else jsQR
decides between the not-found and success outcomes. -/
def decodeCallback (env : ResolveEnv) : Except String DecodeOutcome :=
  match env.load with
  | .failure => .ok .loadError
  | .success w h =>
    if !env.hasContext then .ok .contextError
    else if w == 0 || h == 0 then .error "IndexSizeError"
    else
      match env.qr with
      | none => .ok .notFound
      | some text => .ok (.success text)

/-- C2: for every candidate whose declared MIME type is not exactly one of
image/png, image/jpeg, image/webp (a case-sensitive comparison), `validateFile`
rejects with the unsupported-format message regardless of the byte length;
for every candidate whose declared type is in that set the format check
passes (the result is acceptance or at most the size rejection). -/
theorem c2_format_check (f : File) :
    (f.type ∉ ACCEPTED_MIME_TYPES → validateFile f = some msgUnsupportedFormat) ∧
    (f.type ∈ ACCEPTED_MIME_TYPES →
      validateFile f = none ∨ validateFile f = some msgFileTooLarge) := by
  constructor
  · intro h
    simp [validateFile, List.contains, h]
  · intro h
    by_cases hs : f.size > MAX_FILE_SIZE_BYTES
    · right
      simp [validateFile, List.contains, h, hs]
    · left
      simp [validateFile, List.contains, h, hs]

/-- C3: with an accepted MIME type, `validateFile` accepts any candidate of
at most 5242880 bytes and rejects any of at least 5242881 bytes with the
file-too-large message (a strict greater-than against 5 * 1024 * 1024). -/
theorem c3_size_check (f : File) (h : f.type ∈ ACCEPTED_MIME_TYPES) :
    (f.size ≤ 5242880 → validateFile f = none) ∧
    (5242881 ≤ f.size → validateFile f = some msgFileTooLarge) := by
  constructor
  · intro hs
    have : ¬ f.size > MAX_FILE_SIZE_BYTES := by
      simp only [MAX_FILE_SIZE_BYTES]; omega
    simp [validateFile, List.contains, h, this]
  · intro hs
    have : f.size > MAX_FILE_SIZE_BYTES := by
      simp only [MAX_FILE_SIZE_BYTES]; omega
    simp [validateFile, List.contains, h, this]

/-- C3 witness: a 5242880-byte PNG is accepted and a 5242881-byte PNG is
rejected as too large. -/
theorem c3_size_check_witness :
    validateFile { name := "a.png", type := "image/png", size := 5242880 } = none ∧
    validateFile { name := "b.png", type := "image/png", size := 5242881 } = some msgFileTooLarge :=
  ⟨(c3_size_check { name := "a.png", type := "image/png", size := 5242880 }
      (by decide)).1 (by decide),
   (c3_size_check { name := "b.png", type := "image/png", size := 5242881 }
      (by decide)).2 (by decide)⟩

/-- C4: the decoded text is classified as a clickable link exactly when URL
parsing succeeds and the parsed protocol is http or https; in particular
"https://example.com/x" is a link while "hello world" and "ftp://host/x"
are not. -/
theorem c4_link_classifier (s : String) :
    (isHttpUrl s = true ↔
      ∃ u, parseURL s = some u ∧ (u.protocol = "http:" ∨ u.protocol = "https:")) ∧
    isHttpUrl "https://example.com/x" = true ∧
    isHttpUrl "hello world" = false ∧
    isHttpUrl "ftp://host/x" = false := by
  refine ⟨?_, by decide, by decide, by decide⟩
  unfold isHttpUrl
  cases h : parseURL s with
  | none => simp
  | some u =>
    simp only [Bool.or_eq_true, beq_iff_eq, Option.some.injEq]
    constructor
    · intro hp
      exact ⟨u, rfl, hp⟩
    · rintro ⟨v, rfl, hp⟩
      exact hp

/-- A clipboard item as the paste handler reads it: its declared type and
what `getAsFile()` returns (`none` embeds a null file). -/
structure ClipboardItem where
  type : String
  getAsFile : Option File
  deriving DecidableEq, Repr

/-- A clipboard paste event: `clipboardItems` embeds
`event.clipboardData?.items`, with `none` for a missing clipboard payload. -/
structure ClipboardEvent where
  clipboardItems : Option (List ClipboardItem)
  deriving DecidableEq, Repr

/-- Model of `String.startsWith` (used at src/App.tsx line 117 as
`item.type.startsWith('image/')`), stated on the character lists so that it
evaluates by structural recursion. -/
def strStartsWith (s pre : String) : Bool := pre.data.isPrefixOf s.data

/-- The React state of the component, one field per `useState` hook
(src/App.tsx lines 33–38) plus the file input's value, which the handlers
reset imperatively through `fileInputRef` / `event.target`. -/
structure AppState where
  selectedFile : Option File
  imageUrl : Option Nat
  errorMessage : Option String
  decodeResult : Option String
  decodeError : Option String
  isDecoding : Bool
  fileInputValue : String
  deriving DecidableEq, Repr

/-- One run of the decode effect (src/App.tsx lines 53–107): the file it
captured, its closure's `cancelled` flag, whether its load callback has
already fired (`resolved`), and whether that callback aborted with the
thrown `IndexSizeError` (`threw`).  The job is stored under the numeric id
of the object URL the effect created. -/
structure DecodeJob where
  file : File
  cancelled : Bool
  resolved : Bool
  threw : Bool
  deriving DecidableEq, Repr

/-- The whole interactive world: the component state, every decode-effect
instance ever started (keyed by its object URL id), the ids held by the
current preview-effect and decode-effect cleanups (`none` when the effect's
last run took the no-file early return and registered no cleanup), a
counter allocating fresh object URL ids, and the set of revoked ids. -/
structure World where
  app : AppState
  jobs : Nat → Option DecodeJob
  curJob : Option Nat
  curPreviewUrl : Option Nat
  nextId : Nat
  revoked : List Nat

/-- `URL.revokeObjectURL`: mark an object URL id as revoked. -/
def revokeObjectURL (u : Nat) (w : World) : World :=
  { w with revoked := u :: w.revoked }

/-- Cleanup of the preview effect (src/App.tsx line 50): revoke the preview
object URL, when the previous run created one. -/
def previewCleanup (w : World) : World :=
  match w.curPreviewUrl with
  | none => w
  | some u => revokeObjectURL u w

/-- Cleanup of the decode effect (src/App.tsx lines 103–106): set the
closure's `cancelled` flag and revoke the decode object URL, when the
previous run started a decode. -/
def decodeCleanup (w : World) : World :=
  match w.curJob with
  | none => w
  | some u =>
    { w with
      jobs := fun v =>
        if v = u then (w.jobs u).map (fun j => { j with cancelled := true }) else w.jobs v,
      revoked := u :: w.revoked }

/-- Body of the preview effect (src/App.tsx lines 40–51): with no selected
file it clears the preview URL and the decode outcome state and registers
no cleanup; otherwise it allocates an object URL and publishes it. -/
def previewBody (sel : Option File) (w : World) : World :=
  match sel with
  | none =>
    { w with
      app := { w.app with
        imageUrl := none, decodeResult := none, decodeError := none, isDecoding := false },
      curPreviewUrl := none }
  | some _ =>
    { w with
      app := { w.app with imageUrl := some w.nextId },
      curPreviewUrl := some w.nextId,
      nextId := w.nextId + 1 }

/-- Body of the decode effect (src/App.tsx lines 53–102): with no selected
file it returns at once; otherwise it sets the pending flag, clears both
outcome fields, allocates an object URL and starts the image load — a fresh
uncancelled, unresolved job. -/
def decodeBody (sel : Option File) (w : World) : World :=
  match sel with
  | none => { w with curJob := none }
  | some f =>
    { w with
      app := { w.app with isDecoding := true, decodeError := none, decodeResult := none },
      jobs := fun v =>
        if v = w.nextId then some { file := f, cancelled := false, resolved := false, threw := false }
        else w.jobs v,
      curJob := some w.nextId,
      nextId := w.nextId + 1 }

/-- `setSelectedFile` followed by React's effect pass: both effects depend
on `[selectedFile]`, so when the dependency is unchanged (every `File`
object delivered by an event is fresh, hence only when the old and new
values are both null) nothing re-runs; otherwise the registered cleanups
run, then the preview body, then the decode body, in declaration order. -/
def setSelectedFile (sel : Option File) (w : World) : World :=
  if w.app.selectedFile.isNone && sel.isNone then
    { w with app := { w.app with selectedFile := sel } }
  else
    let w1 := { w with app := { w.app with selectedFile := sel } }
    decodeBody sel (previewBody sel (decodeCleanup (previewCleanup w1)))

/-- How a resolved decode outcome is published (src/App.tsx lines 79–87 and
96–100): exactly one of `setDecodeResult` / `setDecodeError` runs, then
`setIsDecoding(false)`. -/
def applyOutcome (o : DecodeOutcome) (a : AppState) : AppState :=
  match o with
  | .success text => { a with decodeResult := some text, isDecoding := false }
  | .notFound => { a with decodeError := some msgCodeNotFound, isDecoding := false }
  | .loadError => { a with decodeError := some msgImageLoadFailed, isDecoding := false }
  | .contextError => { a with decodeError := some msgContextUnavailable, isDecoding := false }

/-- The load callback of job `u` firing against environment `env`
(src/App.tsx lines 62–101).  A job that does not exist or already fired is
a no-op.  A cancelled job only revokes its URL and returns (the guard at
lines 63–66 and 92–95).  Otherwise the callback publishes its outcome and
revokes the URL — unless `getImageData` throws (zero dimension), in which
case the callback aborts: no state update and no revocation. -/
def resolveJob (u : Nat) (env : ResolveEnv) (w : World) : World :=
  match w.jobs u with
  | none => w
  | some j =>
    if j.resolved then w
    else if j.cancelled then
      { w with
        jobs := fun v => if v = u then some { j with resolved := true } else w.jobs v,
        revoked := u :: w.revoked }
    else
      match decodeCallback env with
      | .ok o =>
        { w with
          app := applyOutcome o w.app,
          jobs := fun v => if v = u then some { j with resolved := true } else w.jobs v,
          revoked := u :: w.revoked }
      | .error _ =>
        { w with
          jobs := fun v =>
            if v = u then some { j with resolved := true, threw := true } else w.jobs v }

/-- src/App.tsx lines 110–137, `handlePaste`: the three failure shapes each
set an error message and return; a validation failure sets the validation
message; otherwise the error is cleared and the file selected. -/
def handlePaste (e : ClipboardEvent) (w : World) : World :=
  match e.clipboardItems with
  | none => { w with app := { w.app with errorMessage := some msgClipboardNoImage } }
  | some items =>
    if items.length == 0 then
      { w with app := { w.app with errorMessage := some msgClipboardNoImage } }
    else
      match items.find? (fun item => strStartsWith item.type "image/") with
      | none => { w with app := { w.app with errorMessage := some msgClipboardNoImage } }
      | some imageItem =>
        match imageItem.getAsFile with
        | none => { w with app := { w.app with errorMessage := some msgClipboardReadFailed } }
        | some file =>
          match validateFile file with
          | some validationError =>
            { w with app := { w.app with errorMessage := some validationError } }
          | none => setSelectedFile (some file) { w with app := { w.app with errorMessage := none } }

/-- src/App.tsx lines 152–166, `handleFileChange`: no file is a no-op; a
validation failure sets the message, clears the selection and resets the
input value; otherwise the error is cleared and the file selected. -/
def handleFileChange (files : List File) (w : World) : World :=
  match files.head? with
  | none => w
  | some file =>
    match validateFile file with
    | some validationError =>
      let w1 := { w with app := { w.app with errorMessage := some validationError } }
      let w2 := setSelectedFile none w1
      { w2 with app := { w2.app with fileInputValue := "" } }
    | none => setSelectedFile (some file) { w with app := { w.app with errorMessage := none } }

/-- src/App.tsx lines 168–177, `handleReset`: clear the selection, the
error message, both outcome fields, the pending flag and the input value. -/
def handleReset (w : World) : World :=
  let w1 := { w with app := { w.app with
    errorMessage := none, decodeResult := none, decodeError := none,
    isDecoding := false, fileInputValue := "" } }
  setSelectedFile none w1

/-- The observable events of the component: a file-input change, a paste, a
click on the reset button, and the firing of a pending load callback. -/
inductive Event where
  | fileChange (files : List File)
  | paste (e : ClipboardEvent)
  | reset
  | resolve (u : Nat) (env : ResolveEnv)

/-- One event's effect on the world. -/
def step (e : Event) (w : World) : World :=
  match e with
  | .fileChange files => handleFileChange files w
  | .paste e => handlePaste e w
  | .reset => handleReset w
  | .resolve u env => resolveJob u env w

/-- The component as mounted: every hook at its initial value, no effect
cleanup registered, no URL allocated. -/
def initialWorld : World :=
  { app := { selectedFile := none, imageUrl := none, errorMessage := none,
             decodeResult := none, decodeError := none, isDecoding := false,
             fileInputValue := "" },
    jobs := fun _ => none, curJob := none, curPreviewUrl := none,
    nextId := 0, revoked := [] }

/-- Run a list of events from a given world. -/
def runFrom (w : World) (es : List Event) : World :=
  es.foldl (fun x e => step e x) w

/-- Run a list of events from the mounted component: the reachable worlds. -/
def runEvents (es : List Event) : World := runFrom initialWorld es


/-- The job table after the decode-effect cleanup: the job the current
cleanup closure captured is cancelled, every other entry is untouched. -/
def cancelCurrent (w : World) (v : Nat) : Option DecodeJob :=
  if w.curJob = some v then (w.jobs v).map (fun j => { j with cancelled := true })
  else w.jobs v

/-- The preview-effect cleanup only revokes a URL: every other component of
the world is unchanged. -/
theorem previewCleanup_app (w : World) : (previewCleanup w).app = w.app := by
  cases h : w.curPreviewUrl <;> simp [previewCleanup, revokeObjectURL, h]

theorem previewCleanup_jobs (w : World) (u : Nat) : (previewCleanup w).jobs u = w.jobs u := by
  cases h : w.curPreviewUrl <;> simp [previewCleanup, revokeObjectURL, h]

theorem previewCleanup_curJob (w : World) : (previewCleanup w).curJob = w.curJob := by
  cases h : w.curPreviewUrl <;> simp [previewCleanup, revokeObjectURL, h]

theorem previewCleanup_nextId (w : World) : (previewCleanup w).nextId = w.nextId := by
  cases h : w.curPreviewUrl <;> simp [previewCleanup, revokeObjectURL, h]

/-- The decode-effect cleanup leaves the component state alone. -/
theorem decodeCleanup_app (w : World) : (decodeCleanup w).app = w.app := by
  cases h : w.curJob <;> simp [decodeCleanup, h]

theorem decodeCleanup_curJob (w : World) : (decodeCleanup w).curJob = w.curJob := by
  cases h : w.curJob <;> simp [decodeCleanup, h]

theorem decodeCleanup_curPreviewUrl (w : World) :
    (decodeCleanup w).curPreviewUrl = w.curPreviewUrl := by
  cases h : w.curJob <;> simp [decodeCleanup, h]

theorem decodeCleanup_nextId (w : World) : (decodeCleanup w).nextId = w.nextId := by
  cases h : w.curJob <;> simp [decodeCleanup, h]

/-- The decode-effect cleanup cancels exactly the currently captured job. -/
theorem decodeCleanup_jobs (w : World) (u : Nat) :
    (decodeCleanup w).jobs u = cancelCurrent w u := by
  unfold cancelCurrent
  cases h : w.curJob with
  | none => simp [decodeCleanup, h]
  | some c =>
    by_cases hu : u = c
    · subst hu; simp [decodeCleanup, h]
    · simp only [decodeCleanup, h]
      rw [if_neg hu, if_neg (fun e => hu (Option.some.inj e).symm)]

theorem decodeCleanup_revoked_mem (w : World) (c : Nat) (h : w.curJob = some c) :
    c ∈ (decodeCleanup w).revoked := by
  simp [decodeCleanup, h]

/-- Selecting a (fresh) file always re-runs both effects: the component
state publishes the selection, a fresh preview URL and the pending decode. -/
theorem setSome_app (f : File) (w : World) :
    (setSelectedFile (some f) w).app =
      { w.app with
          selectedFile := some f
          imageUrl := some w.nextId
          decodeResult := none
          decodeError := none
          isDecoding := true } := by
  unfold setSelectedFile
  simp [previewBody, decodeBody, decodeCleanup_app, previewCleanup_app,
    decodeCleanup_nextId, previewCleanup_nextId]

theorem setSome_curJob (f : File) (w : World) :
    (setSelectedFile (some f) w).curJob = some (w.nextId + 1) := by
  unfold setSelectedFile
  simp [previewBody, decodeBody, decodeCleanup_nextId, previewCleanup_nextId]

theorem setSome_curPreviewUrl (f : File) (w : World) :
    (setSelectedFile (some f) w).curPreviewUrl = some w.nextId := by
  unfold setSelectedFile
  simp [previewBody, decodeBody, decodeCleanup_nextId, previewCleanup_nextId]

theorem setSome_nextId (f : File) (w : World) :
    (setSelectedFile (some f) w).nextId = w.nextId + 2 := by
  unfold setSelectedFile
  simp [previewBody, decodeBody, decodeCleanup_nextId, previewCleanup_nextId]

theorem setSome_jobs_new (f : File) (w : World) :
    (setSelectedFile (some f) w).jobs (w.nextId + 1) =
      some { file := f, cancelled := false, resolved := false, threw := false } := by
  unfold setSelectedFile
  simp [previewBody, decodeBody, decodeCleanup_nextId, previewCleanup_nextId]

theorem setSome_jobs_old (f : File) (w : World) (u : Nat) (hu : u ≠ w.nextId + 1) :
    (setSelectedFile (some f) w).jobs u = cancelCurrent w u := by
  unfold setSelectedFile
  simp only [Option.isNone_some, Bool.and_false, Bool.false_eq_true, if_false,
    previewBody, decodeBody, previewCleanup_nextId, decodeCleanup_nextId]
  rw [if_neg (by simpa using hu), decodeCleanup_jobs]
  simp [cancelCurrent, previewCleanup_curJob, previewCleanup_jobs]

theorem setSome_revoked_mem (f : File) (w : World) (c : Nat) (h : w.curJob = some c) :
    c ∈ (setSelectedFile (some f) w).revoked := by
  unfold setSelectedFile
  simp only [Option.isNone_some, Bool.and_false, Bool.false_eq_true, if_false,
    previewBody, decodeBody]
  exact decodeCleanup_revoked_mem _ _ (by rw [previewCleanup_curJob]; exact h)

/-- Setting the selection to null when it already is null changes nothing:
the dependency is unchanged (Object.is(null, null)), so no effect re-runs. -/
theorem setNone_of_none (w : World) (h : w.app.selectedFile = none) :
    setSelectedFile none w = w := by
  obtain ⟨a, jobs, cj, cp, ni, rv⟩ := w
  obtain ⟨sf, iu, em, dr, de, idec, fiv⟩ := a
  simp only at h
  subst h
  simp [setSelectedFile]

/-- Clearing an existing selection re-runs both effects: the preview body
clears the preview URL and the whole decode outcome state. -/
theorem setNone_app (w : World) (c : File) (h : w.app.selectedFile = some c) :
    (setSelectedFile none w).app =
      { w.app with
          selectedFile := none
          imageUrl := none
          decodeResult := none
          decodeError := none
          isDecoding := false } := by
  unfold setSelectedFile
  simp [h, previewBody, decodeBody, decodeCleanup_app, previewCleanup_app]

theorem setNone_curJob (w : World) (c : File) (h : w.app.selectedFile = some c) :
    (setSelectedFile none w).curJob = none := by
  unfold setSelectedFile
  simp [h, previewBody, decodeBody]

theorem setNone_curPreviewUrl (w : World) (c : File) (h : w.app.selectedFile = some c) :
    (setSelectedFile none w).curPreviewUrl = none := by
  unfold setSelectedFile
  simp [h, previewBody, decodeBody]

theorem setNone_nextId (w : World) :
    (setSelectedFile none w).nextId = w.nextId := by
  unfold setSelectedFile
  by_cases h : w.app.selectedFile.isNone
  · simp [h]
  · simp [h, previewBody, decodeBody, decodeCleanup_nextId, previewCleanup_nextId]

theorem setNone_jobs (w : World) (c : File) (u : Nat) (h : w.app.selectedFile = some c) :
    (setSelectedFile none w).jobs u = cancelCurrent w u := by
  unfold setSelectedFile
  simp only [h, Option.isNone_some, Bool.false_and, Bool.false_eq_true, if_false,
    previewBody, decodeBody]
  rw [decodeCleanup_jobs]
  simp [cancelCurrent, previewCleanup_curJob, previewCleanup_jobs]

theorem setNone_revoked_mem (w : World) (cf : File) (c : Nat)
    (hsel : w.app.selectedFile = some cf) (h : w.curJob = some c) :
    c ∈ (setSelectedFile none w).revoked := by
  unfold setSelectedFile
  simp only [hsel, Option.isNone_some, Bool.false_and, Bool.false_eq_true, if_false,
    previewBody, decodeBody]
  exact decodeCleanup_revoked_mem _ _ (by rw [previewCleanup_curJob]; exact h)

/-- A load callback for a URL the decode effect never created is a no-op. -/
theorem resolve_no_job (u : Nat) (env : ResolveEnv) (w : World) (h : w.jobs u = none) :
    resolveJob u env w = w := by
  simp [resolveJob, h]

/-- A load callback fires at most once: resolving an already resolved job
is a no-op. -/
theorem resolve_resolved (u : Nat) (env : ResolveEnv) (w : World) (j : DecodeJob)
    (h : w.jobs u = some j) (hr : j.resolved = true) :
    resolveJob u env w = w := by
  simp [resolveJob, h, hr]

/-- The cancellation guard: a cancelled job's callback only revokes the
object URL; the component state is untouched. -/
theorem resolve_cancelled (u : Nat) (env : ResolveEnv) (w : World) (j : DecodeJob)
    (h : w.jobs u = some j) (hr : j.resolved = false) (hc : j.cancelled = true) :
    resolveJob u env w =
      { w with
          jobs := fun v => if v = u then some { j with resolved := true } else w.jobs v
          revoked := u :: w.revoked } := by
  simp [resolveJob, h, hr, hc]

/-- A live job's callback that completes publishes exactly its outcome and
revokes the object URL. -/
theorem resolve_live_ok (u : Nat) (env : ResolveEnv) (w : World) (j : DecodeJob)
    (o : DecodeOutcome) (h : w.jobs u = some j) (hr : j.resolved = false)
    (hc : j.cancelled = false) (ho : decodeCallback env = .ok o) :
    resolveJob u env w =
      { w with
          app := applyOutcome o w.app
          jobs := fun v => if v = u then some { j with resolved := true } else w.jobs v
          revoked := u :: w.revoked } := by
  simp [resolveJob, h, hr, hc, ho]

/-- A live job's callback that throws (`getImageData` with a zero
dimension) aborts: no state update and no revocation. -/
theorem resolve_live_err (u : Nat) (env : ResolveEnv) (w : World) (j : DecodeJob)
    (s : String) (h : w.jobs u = some j) (hr : j.resolved = false)
    (hc : j.cancelled = false) (ho : decodeCallback env = .error s) :
    resolveJob u env w =
      { w with
          jobs := fun v =>
            if v = u then some { j with resolved := true, threw := true } else w.jobs v } := by
  simp [resolveJob, h, hr, hc, ho]


/-- The URL id counter never decreases. -/
theorem step_nextId_le (e : Event) (w : World) : w.nextId ≤ (step e w).nextId := by
  cases e with
  | fileChange files =>
    show w.nextId ≤ (handleFileChange files w).nextId
    unfold handleFileChange
    cases hh : files.head? with
    | none => exact Nat.le_refl _
    | some f =>
      cases hv : validateFile f with
      | none => simp only [hv]; simp [setSome_nextId]
      | some err => simp only [hv]; simp [setNone_nextId]
  | paste e =>
    show w.nextId ≤ (handlePaste e w).nextId
    unfold handlePaste
    cases hi : e.clipboardItems with
    | none => exact Nat.le_refl _
    | some items =>
      by_cases hl : items.length == 0
      · simp [hl]
      · simp only [hl, Bool.false_eq_true, if_false]
        cases hf : items.find? (fun item => strStartsWith item.type "image/") with
        | none => exact Nat.le_refl _
        | some imageItem =>
          simp only [hf]
          cases hg : imageItem.getAsFile with
          | none => exact Nat.le_refl _
          | some f =>
            simp only [hg]
            cases hv : validateFile f with
            | none => simp only [hv]; simp [setSome_nextId]
            | some err => simp only [hv]; exact Nat.le_refl _
  | reset =>
    show w.nextId ≤ (handleReset w).nextId
    unfold handleReset
    simp [setNone_nextId]
  | resolve u env =>
    show w.nextId ≤ (resolveJob u env w).nextId
    unfold resolveJob
    cases h : w.jobs u with
    | none => exact Nat.le_refl _
    | some j =>
      simp only [h]
      by_cases hr : j.resolved
      · simp [hr]
      · by_cases hc : j.cancelled
        · simp [hr, hc]
        · simp only [hr, hc, Bool.false_eq_true, if_false]
          cases decodeCallback env <;> exact Nat.le_refl _

/-- Job `u` exists, is cancelled and lies below the allocation counter. -/
def JobCancelled (u : Nat) (w : World) : Prop :=
  u < w.nextId ∧ ∃ j, w.jobs u = some j ∧ j.cancelled = true

/-- `setSelectedFile` lemmas restated at the shape the handlers produce
(the handler first rewrites some state fields, then sets the selection). -/
theorem setSomeApp_app (f : File) (w : World) (a : AppState) :
    (setSelectedFile (some f) { w with app := a }).app =
      { a with
          selectedFile := some f
          imageUrl := some w.nextId
          decodeResult := none
          decodeError := none
          isDecoding := true } := by
  rw [setSome_app]

theorem setSomeApp_jobs_old (f : File) (w : World) (a : AppState) (u : Nat)
    (hu : u ≠ w.nextId + 1) :
    (setSelectedFile (some f) { w with app := a }).jobs u = cancelCurrent w u := by
  rw [setSome_jobs_old f { w with app := a } u (by simpa using hu)]
  rfl

theorem setSomeApp_jobs_new (f : File) (w : World) (a : AppState) :
    (setSelectedFile (some f) { w with app := a }).jobs (w.nextId + 1) =
      some { file := f, cancelled := false, resolved := false, threw := false } := by
  rw [show w.nextId + 1 = ({ w with app := a } : World).nextId + 1 from rfl, setSome_jobs_new]

theorem setSomeApp_curJob (f : File) (w : World) (a : AppState) :
    (setSelectedFile (some f) { w with app := a }).curJob = some (w.nextId + 1) := by
  rw [setSome_curJob]

theorem setSomeApp_nextId (f : File) (w : World) (a : AppState) :
    (setSelectedFile (some f) { w with app := a }).nextId = w.nextId + 2 := by
  rw [setSome_nextId]

theorem setSomeApp_revoked_mem (f : File) (w : World) (a : AppState) (c : Nat)
    (h : w.curJob = some c) :
    c ∈ (setSelectedFile (some f) { w with app := a }).revoked :=
  setSome_revoked_mem f { w with app := a } c h

theorem setNoneApp_of_none (w : World) (a : AppState) (h : a.selectedFile = none) :
    setSelectedFile none { w with app := a } = { w with app := a } :=
  setNone_of_none { w with app := a } h

theorem setNoneApp_app (w : World) (a : AppState) (c : File) (h : a.selectedFile = some c) :
    (setSelectedFile none { w with app := a }).app =
      { a with
          selectedFile := none
          imageUrl := none
          decodeResult := none
          decodeError := none
          isDecoding := false } := by
  rw [setNone_app { w with app := a } c h]

theorem setNoneApp_curJob (w : World) (a : AppState) (c : File) (h : a.selectedFile = some c) :
    (setSelectedFile none { w with app := a }).curJob = none :=
  setNone_curJob { w with app := a } c h

theorem setNoneApp_jobs (w : World) (a : AppState) (c : File) (u : Nat)
    (h : a.selectedFile = some c) :
    (setSelectedFile none { w with app := a }).jobs u = cancelCurrent w u := by
  rw [setNone_jobs { w with app := a } c u h]
  rfl

theorem setNoneApp_nextId (w : World) (a : AppState) :
    (setSelectedFile none { w with app := a }).nextId = w.nextId := by
  rw [setNone_nextId]

theorem setNoneApp_revoked_mem (w : World) (a : AppState) (cf : File) (c : Nat)
    (hsel : a.selectedFile = some cf) (h : w.curJob = some c) :
    c ∈ (setSelectedFile none { w with app := a }).revoked :=
  setNone_revoked_mem { w with app := a } cf c hsel h

/-- A cancelled entry of the job table stays present and cancelled when the
decode-effect cleanup rewrites the table. -/
theorem cancelCurrent_of_cancelled (w : World) (u : Nat) (j : DecodeJob)
    (hj : w.jobs u = some j) (hc : j.cancelled = true) :
    ∃ j', cancelCurrent w u = some j' ∧ j'.cancelled = true := by
  unfold cancelCurrent
  by_cases hv : w.curJob = some u
  · exact ⟨{ j with cancelled := true }, by rw [if_pos hv, hj]; rfl, rfl⟩
  · exact ⟨j, by rw [if_neg hv]; exact hj, hc⟩

/-- A cancelled flag is never reset: every event preserves `JobCancelled`. -/
theorem jobCancelled_step (u : Nat) (e : Event) (w : World) (h : JobCancelled u w) :
    JobCancelled u (step e w) := by
  obtain ⟨hlt, j, hj, hc⟩ := h
  have hlt' : u < (step e w).nextId := Nat.lt_of_lt_of_le hlt (step_nextId_le e w)
  refine ⟨hlt', ?_⟩
  cases e with
  | fileChange files =>
    show ∃ j', (handleFileChange files w).jobs u = some j' ∧ j'.cancelled = true
    unfold handleFileChange
    cases hh : files.head? with
    | none => exact ⟨j, hj, hc⟩
    | some f =>
      cases hv : validateFile f with
      | none =>
        simp only [hv]
        obtain ⟨j', hj', hc'⟩ := cancelCurrent_of_cancelled w u j hj hc
        exact ⟨j', by rw [setSomeApp_jobs_old f w _ u (by omega)]; exact hj', hc'⟩
      | some err =>
        simp only [hv]
        cases hs : w.app.selectedFile with
        | some c =>
          obtain ⟨j', hj', hc'⟩ := cancelCurrent_of_cancelled w u j hj hc
          refine ⟨j', ?_, hc'⟩
          rw [setNoneApp_jobs w
            { w.app with selectedFile := some c, errorMessage := some err } c u rfl]
          exact hj'
        | none =>
          rw [setNoneApp_of_none w
            { w.app with selectedFile := none, errorMessage := some err } rfl]
          exact ⟨j, hj, hc⟩
  | paste e =>
    show ∃ j', (handlePaste e w).jobs u = some j' ∧ j'.cancelled = true
    unfold handlePaste
    cases hi : e.clipboardItems with
    | none => exact ⟨j, hj, hc⟩
    | some items =>
      by_cases hl : items.length == 0
      · simp only [hl, if_true]
        exact ⟨j, hj, hc⟩
      · simp only [hl, Bool.false_eq_true, if_false]
        cases hf : items.find? (fun item => strStartsWith item.type "image/") with
        | none => exact ⟨j, hj, hc⟩
        | some imageItem =>
          simp only [hf]
          cases hg : imageItem.getAsFile with
          | none => exact ⟨j, hj, hc⟩
          | some f =>
            simp only [hg]
            cases hv : validateFile f with
            | none =>
              simp only [hv]
              obtain ⟨j', hj', hc'⟩ := cancelCurrent_of_cancelled w u j hj hc
              exact ⟨j', by rw [setSomeApp_jobs_old f w _ u (by omega)]; exact hj', hc'⟩
            | some err =>
              simp only [hv]
              exact ⟨j, hj, hc⟩
  | reset =>
    show ∃ j', (handleReset w).jobs u = some j' ∧ j'.cancelled = true
    unfold handleReset
    simp only []
    cases hs : w.app.selectedFile with
    | some c =>
      obtain ⟨j', hj', hc'⟩ := cancelCurrent_of_cancelled w u j hj hc
      refine ⟨j', ?_, hc'⟩
      rw [setNoneApp_jobs w
        { w.app with
            selectedFile := some c
            errorMessage := none
            decodeResult := none
            decodeError := none
            isDecoding := false
            fileInputValue := "" } c u rfl]
      exact hj'
    | none =>
      rw [setNoneApp_of_none w
        { w.app with
            selectedFile := none
            errorMessage := none
            decodeResult := none
            decodeError := none
            isDecoding := false
            fileInputValue := "" } rfl]
      exact ⟨j, hj, hc⟩
  | resolve v env =>
    show ∃ j', (resolveJob v env w).jobs u = some j' ∧ j'.cancelled = true
    by_cases hv : v = u
    · subst hv
      by_cases hres : v.succ = v.succ
      · by_cases hr : j.resolved = true
        · rw [resolve_resolved v env w j hj hr]
          exact ⟨j, hj, hc⟩
        · have hr' : j.resolved = false := by simpa using hr
          rw [resolve_cancelled v env w j hj hr' hc]
          exact ⟨{ j with resolved := true }, by simp, hc⟩
      · exact absurd rfl hres
    · have huv : ¬ u = v := fun e' => hv e'.symm
      cases hjv : w.jobs v with
      | none =>
        rw [resolve_no_job v env w hjv]
        exact ⟨j, hj, hc⟩
      | some jv =>
        by_cases hr : jv.resolved = true
        · rw [resolve_resolved v env w jv hjv hr]
          exact ⟨j, hj, hc⟩
        · have hr' : jv.resolved = false := by simpa using hr
          by_cases hcv : jv.cancelled = true
          · rw [resolve_cancelled v env w jv hjv hr' hcv]
            exact ⟨j, by simp [huv, hj], hc⟩
          · have hcv' : jv.cancelled = false := by simpa using hcv
            cases ho : decodeCallback env with
            | ok o =>
              rw [resolve_live_ok v env w jv o hjv hr' hcv' ho]
              exact ⟨j, by simp [huv, hj], hc⟩
            | error s =>
              rw [resolve_live_err v env w jv s hjv hr' hcv' ho]
              exact ⟨j, by simp [huv, hj], hc⟩

theorem jobCancelled_runFrom (u : Nat) (es : List Event) :
    ∀ w : World, JobCancelled u w → JobCancelled u (runFrom w es) := by
  induction es with
  | nil => intro w h; exact h
  | cons e es ih =>
    intro w h
    exact ih (step e w) (jobCancelled_step u e w h)

/-- Resolving a cancelled job never touches the component state. -/
theorem resolve_app_of_cancelled (u : Nat) (env : ResolveEnv) (w : World)
    (h : ∃ j, w.jobs u = some j ∧ j.cancelled = true) :
    (step (.resolve u env) w).app = w.app := by
  obtain ⟨j, hj, hc⟩ := h
  show (resolveJob u env w).app = w.app
  by_cases hr : j.resolved = true
  · rw [resolve_resolved u env w j hj hr]
  · have hr' : j.resolved = false := by simpa using hr
    rw [resolve_cancelled u env w j hj hr' hc]

/-- Selecting a valid file through the file input: the decode effect's
fresh job and its bookkeeping. -/
theorem fileChange_valid (f : File) (w : World) (hv : validateFile f = none) :
    step (.fileChange [f]) w =
      setSelectedFile (some f) { w with app := { w.app with errorMessage := none } } := by
  show handleFileChange [f] w = _
  unfold handleFileChange
  simp only [List.head?, hv]

theorem select_jobs_new (f : File) (w : World) (hv : validateFile f = none) :
    (step (.fileChange [f]) w).jobs (w.nextId + 1) =
      some { file := f, cancelled := false, resolved := false, threw := false } := by
  rw [fileChange_valid f w hv, setSomeApp_jobs_new]

theorem select_curJob (f : File) (w : World) (hv : validateFile f = none) :
    (step (.fileChange [f]) w).curJob = some (w.nextId + 1) := by
  rw [fileChange_valid f w hv, setSomeApp_curJob]

theorem select_nextId (f : File) (w : World) (hv : validateFile f = none) :
    (step (.fileChange [f]) w).nextId = w.nextId + 2 := by
  rw [fileChange_valid f w hv, setSomeApp_nextId]

/-- Selecting another file cancels the job the previous selection started. -/
theorem select_then_select_cancelled (f g : File) (w : World)
    (hf : validateFile f = none) (hg : validateFile g = none) :
    JobCancelled (w.nextId + 1) (step (.fileChange [g]) (step (.fileChange [f]) w)) := by
  set w1 := step (.fileChange [f]) w with hw1
  refine ⟨?_, ?_⟩
  · rw [select_nextId g w1 hg, select_nextId f w hf]
    omega
  · rw [fileChange_valid g w1 hg,
      setSomeApp_jobs_old g w1 { w1.app with errorMessage := none } (w.nextId + 1)
        (by rw [select_nextId f w hf]; omega)]
    unfold cancelCurrent
    rw [if_pos (select_curJob f w hf), select_jobs_new f w hf]
    exact ⟨_, rfl, rfl⟩

/-- Clearing the selection cancels the job the previous selection started. -/
theorem select_then_reset_cancelled (f : File) (w : World)
    (hf : validateFile f = none) :
    JobCancelled (w.nextId + 1) (step .reset (step (.fileChange [f]) w)) := by
  set w1 := step (.fileChange [f]) w with hw1
  have hsel : w1.app.selectedFile = some f := by
    rw [hw1, fileChange_valid f w hf, setSomeApp_app]
  refine ⟨?_, ?_⟩
  · show w.nextId + 1 < (step .reset w1).nextId
    have : (step .reset w1).nextId = w1.nextId := by
      show (handleReset w1).nextId = w1.nextId
      unfold handleReset
      simp only []
      rw [setNoneApp_nextId]
    rw [this, select_nextId f w hf]
    omega
  · show ∃ j, (handleReset w1).jobs (w.nextId + 1) = some j ∧ j.cancelled = true
    unfold handleReset
    simp only []
    rw [setNoneApp_jobs w1
      { w1.app with
          errorMessage := none
          decodeResult := none
          decodeError := none
          isDecoding := false
          fileInputValue := "" } f (w.nextId + 1) (by simpa using hsel)]
    unfold cancelCurrent
    rw [if_pos (select_curJob f w hf), select_jobs_new f w hf]
    exact ⟨_, rfl, rfl⟩

/-- C1: selecting candidate A starts the decode job with id `w.nextId + 1`;
if candidate B is then selected (or the selection reset) before A's load
callback fires, A's job is cancelled and stays cancelled, so A's callback —
whenever it fires, under any environment, after any further events — leaves
the component state (hence the displayed decode outcome) unchanged; and B's
own callback publishes exactly B's outcome. -/
theorem c1_cancellation (w : World) (A B : File)
    (hA : validateFile A = none) (hB : validateFile B = none) :
    ∀ (es : List Event) (envA : ResolveEnv),
      (step (.resolve (w.nextId + 1) envA)
          (runFrom (step (.fileChange [B]) (step (.fileChange [A]) w)) es)).app
        = (runFrom (step (.fileChange [B]) (step (.fileChange [A]) w)) es).app ∧
      (step (.resolve (w.nextId + 1) envA)
          (runFrom (step .reset (step (.fileChange [A]) w)) es)).app
        = (runFrom (step .reset (step (.fileChange [A]) w)) es).app ∧
      (∀ (envB : ResolveEnv) (o : DecodeOutcome), decodeCallback envB = Except.ok o →
        (step (.resolve ((step (.fileChange [A]) w).nextId + 1) envB)
            (step (.fileChange [B]) (step (.fileChange [A]) w))).app
          = applyOutcome o ((step (.fileChange [B]) (step (.fileChange [A]) w)).app)) := by
  intro es envA
  refine ⟨?_, ?_, ?_⟩
  · have h1 := jobCancelled_runFrom (w.nextId + 1) es _
      (select_then_select_cancelled A B w hA hB)
    exact resolve_app_of_cancelled _ envA _ h1.2
  · have h1 := jobCancelled_runFrom (w.nextId + 1) es _
      (select_then_reset_cancelled A w hA)
    exact resolve_app_of_cancelled _ envA _ h1.2
  · intro envB o ho
    set w1 := step (.fileChange [A]) w with hw1
    show (resolveJob (w1.nextId + 1) envB (step (.fileChange [B]) w1)).app = _
    rw [resolve_live_ok (w1.nextId + 1) envB _
      { file := B, cancelled := false, resolved := false, threw := false } o
      (select_jobs_new B w1 hB) rfl rfl ho]

/-- C1 witness: from the mounted component, select a 1-byte PNG, then a
2-byte PNG; the first selection's load callback (job id 1) firing with a
load failure changes nothing in the component state. -/
theorem c1_cancellation_witness :
    (step (.resolve 1 { load := .failure, hasContext := true, qr := none })
        (runFrom (step (.fileChange [{ name := "b.png", type := "image/png", size := 2 }])
          (step (.fileChange [{ name := "a.png", type := "image/png", size := 1 }])
            initialWorld)) [])).app
      = (runFrom (step (.fileChange [{ name := "b.png", type := "image/png", size := 2 }])
          (step (.fileChange [{ name := "a.png", type := "image/png", size := 1 }])
            initialWorld)) []).app :=
  (c1_cancellation initialWorld { name := "a.png", type := "image/png", size := 1 }
    { name := "b.png", type := "image/png", size := 2 } (by decide) (by decide) []
    { load := .failure, hasContext := true, qr := none }).1

/-- C5 counterexample: the paste event with no clipboard items and the
paste event whose items carry no image produce the same error message, so
the three failure cases do not carry three pairwise-different messages. -/
theorem c5_messages_not_distinct :
    (handlePaste { clipboardItems := none } initialWorld).app.errorMessage
        = some msgClipboardNoImage ∧
    (handlePaste { clipboardItems := some [{ type := "text/plain", getAsFile := some { name := "a.txt", type := "text/plain", size := 3 } }] } initialWorld).app.errorMessage = some msgClipboardNoImage := by
  constructor
  · rfl
  · rfl

/-- C5 (amended): each of the three paste failure shapes — no items, items
but none with an image type, and an image item that does not materialise
into a file — sets a human-readable error message and leaves everything
else (in particular the active candidate) unchanged; the first two cases
share one message and the third has a different one, so only two distinct
messages exist. -/
theorem c5_paste_errors (w : World) (e : ClipboardEvent) :
    ((e.clipboardItems = none ∨ e.clipboardItems = some []) →
      handlePaste e w =
        { w with app := { w.app with errorMessage := some msgClipboardNoImage } }) ∧
    (∀ items, e.clipboardItems = some items →
      items.find? (fun item => strStartsWith item.type "image/") = none →
      handlePaste e w =
        { w with app := { w.app with errorMessage := some msgClipboardNoImage } }) ∧
    (∀ items item, e.clipboardItems = some items →
      items.find? (fun item => strStartsWith item.type "image/") = some item →
      item.getAsFile = none →
      handlePaste e w =
        { w with app := { w.app with errorMessage := some msgClipboardReadFailed } }) ∧
    msgClipboardNoImage ≠ msgClipboardReadFailed := by
  refine ⟨?_, ?_, ?_, by decide⟩
  · rintro (h | h) <;> simp [handlePaste, h]
  · intro items hi hf
    unfold handlePaste
    simp only [hi]
    by_cases hl : items.length == 0
    · simp only [hl, if_true]
    · simp only [hl, Bool.false_eq_true, if_false, hf]
  · intro items item hi hf hg
    unfold handlePaste
    simp only [hi]
    have hl : (items.length == 0) = false := by
      cases items with
      | nil => simp [List.find?] at hf
      | cons a l => simp
    simp only [hl, Bool.false_eq_true, if_false, hf, hg]

/-- C6 counterexample: an image that loads with zero natural dimensions
(context available) makes `getImageData` throw: the callback produces no
outcome — in particular not the image-load-failed outcome — and the decode
stays pending with no error published. -/
theorem c6_zero_dims_throws :
    decodeCallback { load := .success 0 0, hasContext := true, qr := none }
        = .error "IndexSizeError" ∧
    (step (.resolve 1 { load := .success 0 0, hasContext := true, qr := none })
        (step (.fileChange [{ name := "z.png", type := "image/png", size := 4 }])
          initialWorld)).app.decodeError = none ∧
    (step (.resolve 1 { load := .success 0 0, hasContext := true, qr := none })
        (step (.fileChange [{ name := "z.png", type := "image/png", size := 4 }])
          initialWorld)).app.isDecoding = true := by
  refine ⟨rfl, ?_, ?_⟩ <;> decide

/-- C6 (amended): a decode callback resolves to exactly one outcome value
and never throws, except in the zero-dimension load case: a load failure
resolves to the load-error outcome, a missing 2D context to the context
outcome, and a load with positive dimensions to jsQR's verdict; only when
the image loads with a zero natural width or height (and a context exists)
does `getImageData` throw `IndexSizeError`, producing no outcome. -/
theorem c6_outcomes (env : ResolveEnv) :
    (env.load = .failure → decodeCallback env = .ok .loadError) ∧
    (∀ wd ht, env.load = .success wd ht → env.hasContext = false →
      decodeCallback env = .ok .contextError) ∧
    (∀ wd ht, env.load = .success wd ht → env.hasContext = true → 0 < wd → 0 < ht →
      decodeCallback env = .ok (match env.qr with
        | none => .notFound
        | some text => .success text)) ∧
    (∀ wd ht, env.load = .success wd ht → env.hasContext = true → (wd = 0 ∨ ht = 0) →
      decodeCallback env = .error "IndexSizeError") := by
  refine ⟨?_, ?_, ?_, ?_⟩
  · intro h; unfold decodeCallback; simp only [h]
  · intro wd ht hl hc
    unfold decodeCallback
    simp only [hl, hc, Bool.not_false, if_true]
  · intro wd ht hl hc h1 h2
    unfold decodeCallback
    simp only [hl, hc, Bool.not_true, Bool.false_eq_true, if_false]
    rw [if_neg (by simp; omega)]
    cases env.qr <;> rfl
  · intro wd ht hl hc hz
    unfold decodeCallback
    simp only [hl, hc, Bool.not_true, Bool.false_eq_true, if_false]
    rw [if_pos (by simp; omega)]

/-- After selecting a valid file and then resetting, the selection's job is
recorded as cancelled but not yet resolved. -/
theorem reset_jobs_explicit (f : File) (w : World) (hf : validateFile f = none) :
    (step .reset (step (.fileChange [f]) w)).jobs (w.nextId + 1)
      = some { file := f, cancelled := true, resolved := false, threw := false } := by
  set w1 := step (.fileChange [f]) w with hw1
  have hsel : w1.app.selectedFile = some f := by
    rw [hw1, fileChange_valid f w hf, setSomeApp_app]
  show (handleReset w1).jobs (w.nextId + 1) = _
  unfold handleReset
  simp only []
  rw [setNoneApp_jobs w1
    { w1.app with
        errorMessage := none
        decodeResult := none
        decodeError := none
        isDecoding := false
        fileInputValue := "" } f (w.nextId + 1) (by simpa using hsel)]
  unfold cancelCurrent
  rw [if_pos (select_curJob f w hf), select_jobs_new f w hf]
  rfl

/-- C7: the object URL the decode effect creates for a selected candidate
(id `w.nextId + 1`) is revoked on every exit path: when the load callback
completes with any outcome (success, load error, missing context, code not
found), when the candidate is replaced by another selection, when the
selection is reset, and when a cancelled callback later fires. -/
theorem c7_url_released (w : World) (A : File) (hA : validateFile A = none) :
    (∀ (env : ResolveEnv) (o : DecodeOutcome), decodeCallback env = Except.ok o →
      (w.nextId + 1) ∈
        (step (.resolve (w.nextId + 1) env) (step (.fileChange [A]) w)).revoked) ∧
    (∀ B : File, validateFile B = none →
      (w.nextId + 1) ∈ (step (.fileChange [B]) (step (.fileChange [A]) w)).revoked) ∧
    (w.nextId + 1) ∈ (step .reset (step (.fileChange [A]) w)).revoked ∧
    (∀ env : ResolveEnv,
      (w.nextId + 1) ∈
        (step (.resolve (w.nextId + 1) env) (step .reset (step (.fileChange [A]) w))).revoked) := by
  set w1 := step (.fileChange [A]) w with hw1
  have hsel : w1.app.selectedFile = some A := by
    rw [hw1, fileChange_valid A w hA, setSomeApp_app]
  refine ⟨?_, ?_, ?_, ?_⟩
  · intro env o ho
    show (w.nextId + 1) ∈ (resolveJob (w.nextId + 1) env w1).revoked
    rw [resolve_live_ok (w.nextId + 1) env w1
      { file := A, cancelled := false, resolved := false, threw := false } o
      (select_jobs_new A w hA) rfl rfl ho]
    exact List.mem_cons_self _ _
  · intro B hB
    show (w.nextId + 1) ∈ (handleFileChange [B] w1).revoked
    rw [show handleFileChange [B] w1 = step (.fileChange [B]) w1 from rfl,
      fileChange_valid B w1 hB]
    exact setSomeApp_revoked_mem B w1 _ _ (select_curJob A w hA)
  · show (w.nextId + 1) ∈ (handleReset w1).revoked
    unfold handleReset
    simp only []
    exact setNoneApp_revoked_mem w1
      { w1.app with
          errorMessage := none
          decodeResult := none
          decodeError := none
          isDecoding := false
          fileInputValue := "" } A (w.nextId + 1) (by simpa using hsel)
      (select_curJob A w hA)
  · intro env
    show (w.nextId + 1) ∈
      (resolveJob (w.nextId + 1) env (step .reset w1)).revoked
    rw [resolve_cancelled (w.nextId + 1) env _
      { file := A, cancelled := true, resolved := false, threw := false }
      (reset_jobs_explicit A w hA) rfl rfl]
    exact List.mem_cons_self _ _

/-- C7 witness: for a concrete 1-byte PNG selected from the mounted
component, the decode URL (id 1) is revoked after a successful decode and
after a reset. -/
theorem c7_url_released_witness :
    1 ∈ (step (.resolve 1 { load := .success 2 2, hasContext := true, qr := some "hi" })
          (step (.fileChange [{ name := "a.png", type := "image/png", size := 1 }])
            initialWorld)).revoked ∧
    1 ∈ (step .reset (step (.fileChange [{ name := "a.png", type := "image/png", size := 1 }])
          initialWorld)).revoked :=
  ⟨(c7_url_released initialWorld { name := "a.png", type := "image/png", size := 1 }
      (by decide)).1 { load := .success 2 2, hasContext := true, qr := some "hi" }
      (.success "hi") rfl,
   (c7_url_released initialWorld { name := "a.png", type := "image/png", size := 1 }
      (by decide)).2.2.1⟩

/-- C8: resetting while a candidate is active (in particular right after a
successful decode) clears every piece of displayed state: the selection,
the preview URL, the validation error, the decoded text, the decode error
and the pending flag all return to their initial empty values. -/
theorem c8_reset_clears (w : World) (c : File) (t : String)
    (hsel : w.app.selectedFile = some c) (hres : w.app.decodeResult = some t) :
    (step .reset w).app =
      { selectedFile := none
        imageUrl := none
        errorMessage := none
        decodeResult := none
        decodeError := none
        isDecoding := false
        fileInputValue := "" } := by
  show (handleReset w).app = _
  unfold handleReset
  simp only []
  rw [setNoneApp_app w
    { w.app with
        errorMessage := none
        decodeResult := none
        decodeError := none
        isDecoding := false
        fileInputValue := "" } c (by simpa using hsel)]

/-- C8 witness: select a PNG, let its decode succeed with text "hi", then
reset: the component state is back to its initial value. -/
theorem c8_reset_clears_witness :
    (step .reset
        (step (.resolve 1 { load := .success 2 2, hasContext := true, qr := some "hi" })
          (step (.fileChange [{ name := "a.png", type := "image/png", size := 1 }])
            initialWorld))).app =
      { selectedFile := none
        imageUrl := none
        errorMessage := none
        decodeResult := none
        decodeError := none
        isDecoding := false
        fileInputValue := "" } :=
  c8_reset_clears
    (step (.resolve 1 { load := .success 2 2, hasContext := true, qr := some "hi" })
      (step (.fileChange [{ name := "a.png", type := "image/png", size := 1 }])
        initialWorld))
    { name := "a.png", type := "image/png", size := 1 } "hi" (by decide) (by decide)

/-- C10: a validation failure behaves differently at the two input
boundaries.  A failing file chosen through the file input clears the active
candidate entirely (selection, preview, decode state and input value) while
publishing the validation message; a failing pasted file only sets the
validation message and leaves every other field — the active candidate, its
preview and its decode outcome — exactly as it was. -/
theorem c10_validation_boundaries (w : World) (c f : File) (err : String)
    (hsel : w.app.selectedFile = some c) (hval : validateFile f = some err) :
    (step (.fileChange [f]) w).app =
      { selectedFile := none
        imageUrl := none
        errorMessage := some err
        decodeResult := none
        decodeError := none
        isDecoding := false
        fileInputValue := "" } ∧
    (∀ items item,
      items.find? (fun i => strStartsWith i.type "image/") = some item →
      item.getAsFile = some f →
      (step (.paste { clipboardItems := some items }) w).app
        = { w.app with errorMessage := some err }) := by
  constructor
  · show (handleFileChange [f] w).app = _
    unfold handleFileChange
    simp only [List.head?, hval]
    rw [setNoneApp_app w { w.app with errorMessage := some err } c (by simpa using hsel)]
  · intro items item hf hg
    show (handlePaste { clipboardItems := some items } w).app = _
    unfold handlePaste
    simp only []
    have hl : (items.length == 0) = false := by
      cases items with
      | nil => simp [List.find?] at hf
      | cons a l => simp
    simp only [hl, Bool.false_eq_true, if_false, hf, hg, hval]

/-- C10 witness: with a 1-byte PNG active, choosing a GIF through the file
input clears the candidate and shows the unsupported-format message, while
pasting the same GIF leaves the candidate in place and only sets the
message. -/
theorem c10_validation_boundaries_witness :
    (step (.fileChange [{ name := "x.gif", type := "image/gif", size := 5 }])
        (step (.fileChange [{ name := "a.png", type := "image/png", size := 1 }])
          initialWorld)).app =
      { selectedFile := none
        imageUrl := none
        errorMessage := some msgUnsupportedFormat
        decodeResult := none
        decodeError := none
        isDecoding := false
        fileInputValue := "" } ∧
    (step (.paste { clipboardItems := some [{ type := "image/gif", getAsFile := some { name := "x.gif", type := "image/gif", size := 5 } }] })
        (step (.fileChange [{ name := "a.png", type := "image/png", size := 1 }])
          initialWorld)).app =
      { (step (.fileChange [{ name := "a.png", type := "image/png", size := 1 }])
          initialWorld).app with errorMessage := some msgUnsupportedFormat } :=
  ⟨(c10_validation_boundaries
      (step (.fileChange [{ name := "a.png", type := "image/png", size := 1 }]) initialWorld)
      { name := "a.png", type := "image/png", size := 1 }
      { name := "x.gif", type := "image/gif", size := 5 } msgUnsupportedFormat
      (by decide) (by decide)).1,
   (c10_validation_boundaries
      (step (.fileChange [{ name := "a.png", type := "image/png", size := 1 }]) initialWorld)
      { name := "a.png", type := "image/png", size := 1 }
      { name := "x.gif", type := "image/gif", size := 5 } msgUnsupportedFormat
      (by decide) (by decide)).2
      [{ type := "image/gif", getAsFile := some { name := "x.gif", type := "image/gif", size := 5 } }]
      { type := "image/gif", getAsFile := some { name := "x.gif", type := "image/gif", size := 5 } }
      (by decide) (by decide)⟩

/-- The decode-lifecycle invariant of the component.  While the pending
flag is set both outcome fields are null; the two outcome fields are never
both set; without a selection there is no registered decode cleanup; job
ids stay below the allocation counter; and a live (uncancelled, unresolved)
job is always the one the current decode effect started, whose start
cleared both outcome fields and set the pending flag. -/
structure WorldInv (w : World) : Prop where
  decode_pending : w.app.isDecoding = true →
    w.app.decodeResult = none ∧ w.app.decodeError = none
  not_both : w.app.decodeResult = none ∨ w.app.decodeError = none
  no_sel_no_job : w.app.selectedFile = none → w.curJob = none
  keys_lt : ∀ u j, w.jobs u = some j → u < w.nextId
  live_is_cur : ∀ u j, w.jobs u = some j → j.cancelled = false → j.resolved = false →
    w.curJob = some u
  live_state : ∀ u j, w.jobs u = some j → j.cancelled = false → j.resolved = false →
    w.app.isDecoding = true ∧ w.app.decodeResult = none ∧ w.app.decodeError = none

/-- Inversion for the cancelled job table: an entry either was the current
job (now cancelled) or is unchanged. -/
theorem cancelCurrent_some (w : World) (u : Nat) (j' : DecodeJob)
    (h : cancelCurrent w u = some j') :
    ∃ j0, w.jobs u = some j0 ∧
      ((w.curJob = some u ∧ j' = { j0 with cancelled := true }) ∨
       (w.curJob ≠ some u ∧ j' = j0)) := by
  unfold cancelCurrent at h
  by_cases hc : w.curJob = some u
  · rw [if_pos hc] at h
    cases hj : w.jobs u with
    | none => rw [hj] at h; simp at h
    | some j0 =>
      rw [hj] at h
      simp only [Option.map_some'] at h
      exact ⟨j0, rfl, Or.inl ⟨hc, (Option.some.inj h).symm⟩⟩
  · rw [if_neg hc] at h
    exact ⟨j', h, Or.inr ⟨hc, rfl⟩⟩

/-- Selecting a file preserves the invariant: the fresh job is the current
one, the old current job is cancelled, and the effect body re-establishes
the pending state. -/
theorem inv_setSome (f : File) (w : World) (a : AppState)
    (hkeys : ∀ u j, w.jobs u = some j → u < w.nextId)
    (hlive : ∀ u j, w.jobs u = some j → j.cancelled = false → j.resolved = false →
      w.curJob = some u) :
    WorldInv (setSelectedFile (some f) { w with app := a }) := by
  constructor
  · intro _
    rw [setSomeApp_app]
    exact ⟨rfl, rfl⟩
  · left; rw [setSomeApp_app]
  · intro hs
    rw [setSomeApp_app] at hs
    simp at hs
  · intro u j hj
    rw [setSomeApp_nextId]
    by_cases hu : u = w.nextId + 1
    · omega
    · rw [setSomeApp_jobs_old f w a u hu] at hj
      obtain ⟨j0, hj0, _⟩ := cancelCurrent_some w u j hj
      have := hkeys u j0 hj0
      omega
  · intro u j hj hc hr
    by_cases hu : u = w.nextId + 1
    · rw [setSomeApp_curJob, hu]
    · rw [setSomeApp_jobs_old f w a u hu] at hj
      obtain ⟨j0, hj0, hcase⟩ := cancelCurrent_some w u j hj
      rcases hcase with ⟨hcur, hje⟩ | ⟨hcur, hje⟩
      · rw [hje] at hc
        simp at hc
      · rw [hje] at hc hr
        exact absurd (hlive u j0 hj0 hc hr) hcur
  · intro _ _ _ _ _
    rw [setSomeApp_app]
    exact ⟨rfl, rfl, rfl⟩

/-- Clearing an existing selection preserves the invariant: the cleanup
cancels the only live job and the preview body clears the decode state. -/
theorem inv_setNone_some (w : World) (a : AppState) (c : File)
    (hsel : a.selectedFile = some c)
    (hkeys : ∀ u j, w.jobs u = some j → u < w.nextId)
    (hlive : ∀ u j, w.jobs u = some j → j.cancelled = false → j.resolved = false →
      w.curJob = some u) :
    WorldInv (setSelectedFile none { w with app := a }) := by
  have no_live : ∀ u j, (setSelectedFile none { w with app := a }).jobs u = some j →
      j.cancelled = false → j.resolved = false → False := by
    intro u j hj hc hr
    rw [setNoneApp_jobs w a c u hsel] at hj
    obtain ⟨j0, hj0, hcase⟩ := cancelCurrent_some w u j hj
    rcases hcase with ⟨hcur, hje⟩ | ⟨hcur, hje⟩
    · rw [hje] at hc; simp at hc
    · rw [hje] at hc hr
      exact absurd (hlive u j0 hj0 hc hr) hcur
  constructor
  · intro hd
    rw [setNoneApp_app w a c hsel] at hd
    simp at hd
  · left; rw [setNoneApp_app w a c hsel]
  · intro _
    rw [setNoneApp_curJob w a c hsel]
  · intro u j hj
    rw [setNoneApp_nextId]
    rw [setNoneApp_jobs w a c u hsel] at hj
    obtain ⟨j0, hj0, _⟩ := cancelCurrent_some w u j hj
    exact hkeys u j0 hj0
  · intro u j hj hc hr
    exact absurd (no_live u j hj hc hr) (fun h => h)
  · intro u j hj hc hr
    exact absurd (no_live u j hj hc hr) (fun h => h)

/-- Rewriting state fields other than the selection and the decode fields
preserves the invariant. -/
theorem inv_set_error (w : World) (m : Option String) (h : WorldInv w) :
    WorldInv { w with app := { w.app with errorMessage := m } } := by
  constructor
  · exact h.decode_pending
  · exact h.not_both
  · exact h.no_sel_no_job
  · exact h.keys_lt
  · exact h.live_is_cur
  · exact h.live_state

/-- Publishing an outcome never changes the selection. -/
theorem applyOutcome_selectedFile (o : DecodeOutcome) (a : AppState) :
    (applyOutcome o a).selectedFile = a.selectedFile := by
  cases o <;> rfl

/-- The load callbacks preserve the invariant: a live callback publishes
exactly one outcome into a state whose outcome fields were both null. -/
theorem inv_resolve (u : Nat) (env : ResolveEnv) (w : World) (h : WorldInv w) :
    WorldInv (resolveJob u env w) := by
  cases hj : w.jobs u with
  | none => rw [resolve_no_job u env w hj]; exact h
  | some j =>
    by_cases hr : j.resolved = true
    · rw [resolve_resolved u env w j hj hr]; exact h
    · have hr' : j.resolved = false := by simpa using hr
      by_cases hc : j.cancelled = true
      · rw [resolve_cancelled u env w j hj hr' hc]
        constructor
        · exact h.decode_pending
        · exact h.not_both
        · exact h.no_sel_no_job
        · intro v jv hjv
          simp only at hjv
          by_cases hv : v = u
          · exact hv ▸ h.keys_lt u j hj
          · rw [if_neg hv] at hjv
            exact h.keys_lt v jv hjv
        · intro v jv hjv hcv hrv
          simp only at hjv
          by_cases hv : v = u
          · subst hv
            rw [if_pos rfl] at hjv
            rw [← Option.some.inj hjv] at hrv
            simp at hrv
          · rw [if_neg hv] at hjv
            exact h.live_is_cur v jv hjv hcv hrv
        · intro v jv hjv hcv hrv
          simp only at hjv
          by_cases hv : v = u
          · subst hv
            rw [if_pos rfl] at hjv
            rw [← Option.some.inj hjv] at hrv
            simp at hrv
          · rw [if_neg hv] at hjv
            exact h.live_state v jv hjv hcv hrv
      · have hc' : j.cancelled = false := by simpa using hc
        have hstate := h.live_state u j hj hc' hr'
        have hcur := h.live_is_cur u j hj hc' hr'
        cases ho : decodeCallback env with
        | ok o =>
          rw [resolve_live_ok u env w j o hj hr' hc' ho]
          constructor
          · intro hd
            simp only at hd
            cases o <;> simp [applyOutcome] at hd
          · cases o <;> simp only [applyOutcome]
            · right; exact hstate.2.2
            · left; exact hstate.2.1
            · left; exact hstate.2.1
            · left; exact hstate.2.1
          · intro hs
            simp only [applyOutcome_selectedFile] at hs
            exact h.no_sel_no_job hs
          · intro v jv hjv
            simp only at hjv
            by_cases hv : v = u
            · exact hv ▸ h.keys_lt u j hj
            · rw [if_neg hv] at hjv
              exact h.keys_lt v jv hjv
          · intro v jv hjv hcv hrv
            simp only at hjv
            by_cases hv : v = u
            · subst hv
              rw [if_pos rfl] at hjv
              rw [← Option.some.inj hjv] at hrv
              simp at hrv
            · rw [if_neg hv] at hjv
              have := h.live_is_cur v jv hjv hcv hrv
              rw [this] at hcur
              exact absurd (Option.some.inj hcur) hv
          · intro v jv hjv hcv hrv
            simp only at hjv
            by_cases hv : v = u
            · subst hv
              rw [if_pos rfl] at hjv
              rw [← Option.some.inj hjv] at hrv
              simp at hrv
            · rw [if_neg hv] at hjv
              have := h.live_is_cur v jv hjv hcv hrv
              rw [this] at hcur
              exact absurd (Option.some.inj hcur) hv
        | error s =>
          rw [resolve_live_err u env w j s hj hr' hc' ho]
          constructor
          · exact h.decode_pending
          · exact h.not_both
          · exact h.no_sel_no_job
          · intro v jv hjv
            simp only at hjv
            by_cases hv : v = u
            · exact hv ▸ h.keys_lt u j hj
            · rw [if_neg hv] at hjv
              exact h.keys_lt v jv hjv
          · intro v jv hjv hcv hrv
            simp only at hjv
            by_cases hv : v = u
            · subst hv
              rw [if_pos rfl] at hjv
              rw [← Option.some.inj hjv] at hrv
              simp at hrv
            · rw [if_neg hv] at hjv
              exact h.live_is_cur v jv hjv hcv hrv
          · intro v jv hjv hcv hrv
            simp only at hjv
            by_cases hv : v = u
            · subst hv
              rw [if_pos rfl] at hjv
              rw [← Option.some.inj hjv] at hrv
              simp at hrv
            · rw [if_neg hv] at hjv
              exact h.live_state v jv hjv hcv hrv

/-- Resetting the file input's value preserves the invariant. -/
theorem inv_set_fileInput (w : World) (s : String) (h : WorldInv w) :
    WorldInv { w with app := { w.app with fileInputValue := s } } := by
  constructor
  · exact h.decode_pending
  · exact h.not_both
  · exact h.no_sel_no_job
  · exact h.keys_lt
  · exact h.live_is_cur
  · exact h.live_state

/-- Every event of the component preserves the decode-lifecycle invariant. -/
theorem inv_step (e : Event) (w : World) (h : WorldInv w) : WorldInv (step e w) := by
  cases e with
  | fileChange files =>
    show WorldInv (handleFileChange files w)
    unfold handleFileChange
    cases hh : files.head? with
    | none => exact h
    | some f =>
      cases hv : validateFile f with
      | none =>
        simp only [hv]
        exact inv_setSome f w _ h.keys_lt h.live_is_cur
      | some err =>
        simp only [hv]
        cases hs : w.app.selectedFile with
        | some c =>
          exact inv_set_fileInput _ ""
            (inv_setNone_some w
              { w.app with selectedFile := some c, errorMessage := some err } c rfl
              h.keys_lt h.live_is_cur)
        | none =>
          rw [setNoneApp_of_none w
            { w.app with selectedFile := none, errorMessage := some err } rfl]
          constructor
          · exact h.decode_pending
          · exact h.not_both
          · intro _
            exact h.no_sel_no_job hs
          · exact h.keys_lt
          · exact h.live_is_cur
          · exact h.live_state
  | paste e =>
    show WorldInv (handlePaste e w)
    unfold handlePaste
    cases hi : e.clipboardItems with
    | none => exact inv_set_error w _ h
    | some items =>
      by_cases hl : items.length == 0
      · simp only [hl, if_true]
        exact inv_set_error w _ h
      · simp only [hl, Bool.false_eq_true, if_false]
        cases hf : items.find? (fun item => strStartsWith item.type "image/") with
        | none => exact inv_set_error w _ h
        | some imageItem =>
          simp only [hf]
          cases hg : imageItem.getAsFile with
          | none => exact inv_set_error w _ h
          | some f =>
            simp only [hg]
            cases hv : validateFile f with
            | none =>
              simp only [hv]
              exact inv_setSome f w _ h.keys_lt h.live_is_cur
            | some err =>
              simp only [hv]
              exact inv_set_error w _ h
  | reset =>
    show WorldInv (handleReset w)
    unfold handleReset
    simp only []
    cases hs : w.app.selectedFile with
    | some c =>
      exact inv_setNone_some w
        { w.app with
            selectedFile := some c
            errorMessage := none
            decodeResult := none
            decodeError := none
            isDecoding := false
            fileInputValue := "" } c rfl h.keys_lt h.live_is_cur
    | none =>
      rw [setNoneApp_of_none w
        { w.app with
            selectedFile := none
            errorMessage := none
            decodeResult := none
            decodeError := none
            isDecoding := false
            fileInputValue := "" } rfl]
      constructor
      · intro hd
        simp at hd
      · exact Or.inl rfl
      · intro _
        exact h.no_sel_no_job hs
      · exact h.keys_lt
      · exact h.live_is_cur
      · intro u j hj hc hr
        have := h.live_is_cur u j hj hc hr
        rw [h.no_sel_no_job hs] at this
        exact absurd this (by simp)
  | resolve u env => exact inv_resolve u env w h

/-- The mounted component satisfies the invariant. -/
theorem inv_initialWorld : WorldInv initialWorld := by
  constructor
  · intro _; exact ⟨rfl, rfl⟩
  · exact Or.inl rfl
  · intro _; rfl
  · intro u j hj; exact absurd hj (by simp [initialWorld])
  · intro u j hj _ _; exact absurd hj (by simp [initialWorld])
  · intro u j hj _ _; exact absurd hj (by simp [initialWorld])

theorem inv_runFrom (es : List Event) :
    ∀ w : World, WorldInv w → WorldInv (runFrom w es) := by
  induction es with
  | nil => intro w h; exact h
  | cons e es ih => intro w h; exact ih (step e w) (inv_step e w h)

/-- Every reachable world satisfies the decode-lifecycle invariant. -/
theorem inv_runEvents (es : List Event) : WorldInv (runEvents es) :=
  inv_runFrom es initialWorld inv_initialWorld

/-- C9: in every reachable state at most one decode outcome is active —
while the pending flag is set both the result and the error are null, and
the result and the error are never both set; moreover starting a decode
(selecting a valid file) clears both outcome fields and sets the pending
flag, and a completing callback clears the pending flag and sets exactly
one of the two outcome fields. -/
theorem c9_outcome_exclusive (es : List Event) :
    ((runEvents es).app.isDecoding = true →
      (runEvents es).app.decodeResult = none ∧ (runEvents es).app.decodeError = none) ∧
    ((runEvents es).app.decodeResult = none ∨ (runEvents es).app.decodeError = none) ∧
    (∀ f : File, validateFile f = none →
      (step (.fileChange [f]) (runEvents es)).app.isDecoding = true ∧
      (step (.fileChange [f]) (runEvents es)).app.decodeResult = none ∧
      (step (.fileChange [f]) (runEvents es)).app.decodeError = none) ∧
    (∀ (f : File) (env : ResolveEnv) (o : DecodeOutcome),
      validateFile f = none → decodeCallback env = Except.ok o →
      (step (.resolve ((runEvents es).nextId + 1) env)
          (step (.fileChange [f]) (runEvents es))).app.isDecoding = false ∧
      (((step (.resolve ((runEvents es).nextId + 1) env)
            (step (.fileChange [f]) (runEvents es))).app.decodeResult = none ∧
        (step (.resolve ((runEvents es).nextId + 1) env)
            (step (.fileChange [f]) (runEvents es))).app.decodeError ≠ none) ∨
       ((step (.resolve ((runEvents es).nextId + 1) env)
            (step (.fileChange [f]) (runEvents es))).app.decodeResult ≠ none ∧
        (step (.resolve ((runEvents es).nextId + 1) env)
            (step (.fileChange [f]) (runEvents es))).app.decodeError = none))) := by
  have hinv := inv_runEvents es
  refine ⟨hinv.decode_pending, hinv.not_both, ?_, ?_⟩
  · intro f hv
    rw [fileChange_valid f (runEvents es) hv, setSomeApp_app]
    exact ⟨rfl, rfl, rfl⟩
  · intro f env o hv ho
    have hres : step (.resolve ((runEvents es).nextId + 1) env)
        (step (.fileChange [f]) (runEvents es)) =
      resolveJob ((runEvents es).nextId + 1) env
        (step (.fileChange [f]) (runEvents es)) := rfl
    rw [hres, resolve_live_ok ((runEvents es).nextId + 1) env _
      { file := f, cancelled := false, resolved := false, threw := false } o
      (select_jobs_new f (runEvents es) hv) rfl rfl ho]
    cases o with
    | success text =>
      refine ⟨rfl, Or.inr ⟨?_, ?_⟩⟩
      · simp [applyOutcome]
      · show (applyOutcome (.success text)
            (step (.fileChange [f]) (runEvents es)).app).decodeError = none
        rw [fileChange_valid f (runEvents es) hv, setSomeApp_app]
        simp [applyOutcome]
    | notFound =>
      refine ⟨rfl, Or.inl ⟨?_, ?_⟩⟩
      · show (applyOutcome .notFound
            (step (.fileChange [f]) (runEvents es)).app).decodeResult = none
        rw [fileChange_valid f (runEvents es) hv, setSomeApp_app]
        simp [applyOutcome]
      · simp [applyOutcome]
    | loadError =>
      refine ⟨rfl, Or.inl ⟨?_, ?_⟩⟩
      · show (applyOutcome .loadError
            (step (.fileChange [f]) (runEvents es)).app).decodeResult = none
        rw [fileChange_valid f (runEvents es) hv, setSomeApp_app]
        simp [applyOutcome]
      · simp [applyOutcome]
    | contextError =>
      refine ⟨rfl, Or.inl ⟨?_, ?_⟩⟩
      · show (applyOutcome .contextError
            (step (.fileChange [f]) (runEvents es)).app).decodeResult = none
        rw [fileChange_valid f (runEvents es) hv, setSomeApp_app]
        simp [applyOutcome]
      · simp [applyOutcome]
